import Mathlib

/-!
Shallow embedding of the `showinfilemanager` package (damonlynch/showinfilemanager).

Strings are modelled as `List Char` (abbreviated `Str`).  External collaborators
(the filesystem, the `wslpath` helper, the `caja --version` probe) are modelled
as explicit oracle parameters.  Python integers returned by `str.find` are
modelled as `Int` (with `-1` for "not found"), matching CPython semantics.
-/

abbrev Str := List Char

/-- The single-quote character (written via its code point). -/
def apos : Char := Char.ofNat 39

/-- Index of the first occurrence of `pat` as a contiguous sublist, if any.
Models the search underlying Python `str.find`. -/
def firstOccIdx (pat : Str) : Str → Option Nat
  | [] => if pat = [] then some 0 else none
  | c :: rest =>
    if pat.isPrefixOf (c :: rest) then some 0
    else (firstOccIdx pat rest).map (· + 1)

/-- Python `str.find`: first index of the substring, `-1` when absent. -/
def pyFind (pat s : Str) : Int :=
  match firstOccIdx pat s with
  | none => -1
  | some n => (n : Int)

/-- Whether `pat` occurs as a substring at all (used to state spec claims). -/
def containsSub (pat s : Str) : Bool := (firstOccIdx pat s).isSome

/-- Python `str.lower` restricted to ASCII letters. -/
def pyLower (s : Str) : Str := s.map Char.toLower

/-- Python whitespace characters recognised by `str.strip` (ASCII subset). -/
def isPySpace (c : Char) : Bool :=
  c = ' ' || c = '\t' || c = '\n' || c = '\x0d' || c = '\x0b' || c = '\x0c'

/-- Python `str.strip()` with no arguments (ASCII whitespace). -/
def pyStrip (s : Str) : Str :=
  ((s.dropWhile isPySpace).reverse.dropWhile isPySpace).reverse

/-!  ## `showinfm/system/linux.py`: WSL detection (`wsl_version`, `detect_wsl`)

`wsl_version` reads `/proc/version`; here the file content is the parameter `p`.
The Python code is
`if p.find("microsoft") > 0 and p.find("WSL2"): return wsl2` — note that the
second conjunct tests the *truthiness* of the integer returned by `find`,
which is falsy only when the index is `0`. -/

inductive LinuxDesktop where
  | gnome | unity | cinnamon | kde | xfce | mate | lxde | lxqt
  | ubuntugnome | popgnome | deepin | zorin | ukui | pantheon
  | enlightenment | wsl | wsl2 | cutefish | lumina | unknown
deriving DecidableEq, Repr

/-- `linux.wsl_version`, as a function of the contents of `/proc/version`. -/
def wsl_version (p : Str) : Option LinuxDesktop :=
  if pyFind "microsoft".toList p > 0 ∧ pyFind "WSL2".toList p ≠ 0 then
    some LinuxDesktop.wsl2
  else if pyFind "Microsoft".toList p > 0 then some LinuxDesktop.wsl
  else none

/-- `linux.detect_wsl`, as a function of the contents of `/proc/version`. -/
def detect_wsl (p : Str) : Bool :=
  decide (pyFind "microsoft".toList (pyLower p) > 0)

/-- The `is_wsl` flag computed in `showinfm/system/__init__.py` (Linux case). -/
def is_wsl (p : Str) : Bool := detect_wsl p

/-- The `is_wsl2` flag computed in `showinfm/system/__init__.py` (Linux case). -/
def is_wsl2 (p : Str) : Bool :=
  is_wsl p && decide (wsl_version p = some LinuxDesktop.wsl2)

/-- The `is_wsl1` flag computed in `showinfm/system/__init__.py` (Linux case). -/
def is_wsl1 (p : Str) : Bool := is_wsl p && !(is_wsl2 p)

/-!  ## `showinfm/system/tools.py`: `quote_path`

Both quoting rules operate on `str(path)`.  The Windows rule uses
`re.match("'(.*)'", p)` (resp. with double quotes): an *unanchored* match that
requires the first character to be the quote and a later closing quote with no
newline in between (`.` does not match a newline). -/

/-- Whether a closing quote `q` occurs with no intervening newline; models the
`(.*)'` part of `re.match("'(.*)'", p)`. -/
def hasCloseQuote (q : Char) : Str → Bool
  | [] => false
  | c :: rest => if c = q then true else if c = '\n' then false else hasCloseQuote q rest

/-- Models `re.match("q(.*)q", p) is not None` for a quote character `q`. -/
def reMatchWrapped (q : Char) (s : Str) : Bool :=
  match s with
  | [] => false
  | c :: rest => c = q && hasCloseQuote q rest

/-- The Windows branch of `tools.quote_path`. -/
def quote_path_windows (s : Str) : Str :=
  if reMatchWrapped apos s then '"' :: ((s.drop 1).dropLast ++ ['"'])
  else if reMatchWrapped '"' s then s
  else '"' :: (s ++ ['"'])

/-- Characters `shlex.quote` treats as safe: ASCII letters and digits plus
underscore, at-sign, percent, plus, equals, colon, comma, dot, slash, hyphen
(the complement of the `_find_unsafe` pattern compiled with `re.ASCII`). -/
def shlexSafeChar (c : Char) : Bool :=
  c.isAlpha || c.isDigit || c = '_' || c = '@' || c = '%' || c = '+' || c = '='
    || c = ':' || c = ',' || c = '.' || c = '/' || c = '-'

/-- The replacement `shlex.quote` applies to each character (a single quote
becomes the five-character sequence quote, double-quote, quote, double-quote,
quote). -/
def shlexQuoteRepl (c : Char) : Str :=
  if c = apos then [apos, '"', apos, '"', apos] else [c]

/-- CPython `shlex.quote`. -/
def shlexQuote (s : Str) : Str :=
  if s = [] then [apos, apos]
  else if s.all shlexSafeChar then s
  else apos :: (s.flatMap shlexQuoteRepl ++ [apos])

/-- The non-Windows branch of `tools.quote_path`; `none` models the
`IndexError` Python raises on an empty string (`p[0]`). -/
def quote_path_posix (s : Str) : Option Str :=
  match s with
  | [] => none
  | c :: _ =>
    if (c = '"' || c = apos) && s.getLast? = some c then some s
    else some (shlexQuote s)

/-!  ## `showinfm/system/linux.py`: the Caja version probe

`caja_version` runs `caja --version`; the probe outcome is the oracle
parameter: `none` models a `CalledProcessError`, `some out` the raw decoded
stdout.  `packaging.version` is a third-party dependency excluded from the
spec's scope; it is modelled here on plain dotted-numeric version strings
(the only form `caja` emits): such a string parses to its list of numeric
components, anything else raises `InvalidVersion` (modelled as failure), and
releases compare lexicographically with zero padding per PEP 440. -/

/-- Index of the first decimal digit; models `re.search(r"\d", s)`. -/
def firstDigitIdx : Str → Option Nat
  | [] => none
  | c :: rest => if c.isDigit then some 0 else (firstDigitIdx rest).map (· + 1)

/-- Split a character list on a separator character. -/
def splitOnChar (sep : Char) : Str → List Str
  | [] => [[]]
  | c :: rest =>
    let r := splitOnChar sep rest
    if c = sep then [] :: r
    else match r with
      | [] => [[c]]
      | h :: t => (c :: h) :: t

/-- Decimal value of a digit string. -/
def strToNat (s : Str) : Nat :=
  s.foldl (fun n c => n * 10 + (c.toNat - 48)) 0

/-- Parse a plain dotted-numeric version string into its components;
`none` models `packaging.version.InvalidVersion`. -/
def parseVersionNums (s : Str) : Option (List Nat) :=
  if s = [] then none
  else
    let comps := splitOnChar '.' s
    if comps.all (fun c => c ≠ [] && c.all Char.isDigit) then
      some (comps.map strToNat)
    else none

/-- Comparison of the empty release against remaining components (zero padding):
equal when all remaining components are zero, smaller otherwise. -/
def versionCmpNil : List Nat → Ordering
  | [] => Ordering.eq
  | b :: bs => if b = 0 then versionCmpNil bs else Ordering.lt

/-- PEP 440 release comparison: lexicographic with zero padding. -/
def versionCmp : List Nat → List Nat → Ordering
  | [], bs => versionCmpNil bs
  | a :: as, [] => if a = 0 then versionCmp as [] else Ordering.gt
  | a :: as, b :: bs =>
    if a < b then Ordering.lt
    else if b < a then Ordering.gt
    else versionCmp as bs

/-- `linux.caja_version` as a function of the probe outcome.  `Except.error`
models an uncaught exception (`CalledProcessError` rewrapped, or
`InvalidVersion` from parsing); `Except.ok none` models the digit-free case. -/
def caja_version (probe : Option Str) : Except Unit (Option (List Nat)) :=
  match probe with
  | none => Except.error ()
  | some out =>
    let vs := pyStrip out
    match firstDigitIdx vs with
    | none => Except.ok none
    | some i =>
      match parseVersionNums (vs.drop i) with
      | none => Except.error ()
      | some v => Except.ok (some v)

/-- `linux.caja_supports_select` as a function of the probe outcome. -/
def caja_supports_select (probe : Option Str) : Bool :=
  match caja_version probe with
  | Except.error _ => false
  | Except.ok none => false
  | Except.ok (some v) => versionCmp v [1, 26] ≠ Ordering.lt

/-- The command-line conventions a file manager uses (`constants.FileManagerType`). -/
inductive FileManagerType where
  | regular | select | dir_only_uri | show_item | show_items
  | win_select | reveal | dual_panel
deriving DecidableEq, Repr

/-- The `LinuxFileManagerBehavior` lookup table from `showinfm/system/linux.py`. -/
def LinuxFileManagerBehavior : List (Str × FileManagerType) :=
  [("nautilus".toList, FileManagerType.select),
   ("dolphin".toList, FileManagerType.select),
   ("caja".toList, FileManagerType.dir_only_uri),
   ("thunar".toList, FileManagerType.dir_only_uri),
   ("nemo".toList, FileManagerType.regular),
   ("pcmanfm".toList, FileManagerType.dir_only_uri),
   ("peony".toList, FileManagerType.show_items),
   ("index".toList, FileManagerType.dir_only_uri),
   ("doublecmd".toList, FileManagerType.dual_panel),
   ("krusader".toList, FileManagerType.dir_only_uri),
   ("spacefm".toList, FileManagerType.dir_only_uri),
   ("fman".toList, FileManagerType.dual_panel),
   ("pcmanfm-qt".toList, FileManagerType.dir_only_uri),
   ("dde-file-manager".toList, FileManagerType.show_item),
   ("io.elementary.files".toList, FileManagerType.regular),
   ("cutefish-filemanager".toList, FileManagerType.dir_only_uri),
   ("lumina-fm".toList, FileManagerType.dir_only_uri)]

/-- Dictionary lookup with a default (`dict.get(key, default)`). -/
def lookupFMB (fm : Str) : FileManagerType :=
  match LinuxFileManagerBehavior.find? (fun e => e.1 = fm) with
  | some e => e.2
  | none => FileManagerType.regular

/-- `linux.linux_file_manager_type`, with the Caja probe outcome explicit. -/
def linux_file_manager_type (fm : Str) (probe : Option Str) : FileManagerType :=
  if fm = "caja".toList ∧ caja_supports_select probe then FileManagerType.select
  else lookupFMB fm

/-!  ## URI grammar (`showinfm/system/urivalidate.py`, not present in the tree)

`tools.is_uri` applies `re.match("^%s$" % urivalidate.URI, s, re.VERBOSE)`.
The `urivalidate` module itself is not under `src/`, so its grammar is
modelled from the spec, which describes "a single fixed regular-expression
grammar implementing generic URI syntax (scheme, authority, path, query,
fragment) applied as a whole-string match" and accepts "any RFC-3986-conformant
equivalent".  The decision procedure below follows RFC 3986 `URI`;
the bracketed IP-literal host form is approximated by a run of hex digits,
colons and dots. -/

/-- ASCII hexadecimal digit. -/
def isHexDig (c : Char) : Bool :=
  c.isDigit || ('A' ≤ c && c ≤ 'F') || ('a' ≤ c && c ≤ 'f')

/-- RFC 3986 `unreserved`. -/
def isUnreserved (c : Char) : Bool :=
  c.isAlpha || c.isDigit || c = '-' || c = '.' || c = '_' || c = '~'

/-- RFC 3986 `sub-delims`. -/
def isSubDelim (c : Char) : Bool :=
  c = '!' || c = '$' || c = '&' || c = apos || c = '(' || c = ')'
    || c = '*' || c = '+' || c = ',' || c = ';' || c = '='

/-- Validate a run of `unreserved` / `sub-delims` / `extra` characters, with
well-formed percent-encoded triplets. -/
def pctRun (extra : List Char) : Str → Bool
  | [] => true
  | '%' :: a :: b :: t => isHexDig a && isHexDig b && pctRun extra t
  | '%' :: _ => false
  | c :: rest => (isUnreserved c || isSubDelim c || c ∈ extra) && pctRun extra rest

/-- RFC 3986 `scheme`: a letter followed by letters, digits, plus, hyphen, dot. -/
def schemeOk (s : Str) : Bool :=
  match s with
  | [] => false
  | c :: rest =>
    c.isAlpha && rest.all (fun x => x.isAlpha || x.isDigit || x = '+' || x = '-' || x = '.')

/-- RFC 3986 `host` with optional `port`; the bracketed IP-literal form is
approximated as a nonempty run of hex digits, colons and dots. -/
def hostPortOk (hp : Str) : Bool :=
  match hp with
  | '[' :: rest =>
    (match firstOccIdx [']'] rest with
     | none => false
     | some j =>
       let inner := rest.take j
       let after := rest.drop (j + 1)
       (inner ≠ [] && inner.all (fun c => isHexDig c || c = ':' || c = '.')) &&
       (after = [] || (after.take 1 = [':'] && (after.drop 1).all Char.isDigit)))
  | _ =>
    let host := hp.takeWhile (fun c => c ≠ ':')
    let rest := hp.dropWhile (fun c => c ≠ ':')
    pctRun [] host && (rest = [] || (rest.drop 1).all Char.isDigit)

/-- RFC 3986 `authority`: optional userinfo, then host and optional port. -/
def authorityOk (a : Str) : Bool :=
  if '@' ∈ a then
    pctRun [':'] (a.takeWhile (fun c => c ≠ '@')) &&
    hostPortOk ((a.dropWhile (fun c => c ≠ '@')).drop 1)
  else hostPortOk a

/-- Path characters: `pchar` plus the segment separator. -/
def pathRun : Str → Bool := pctRun [':', '@', '/']

/-- RFC 3986 `hier-part`. -/
def hierOk (hier : Str) : Bool :=
  if hier.take 2 = ['/', '/'] then
    let rest := hier.drop 2
    authorityOk (rest.takeWhile (fun c => c ≠ '/')) &&
      pathRun (rest.dropWhile (fun c => c ≠ '/'))
  else pathRun hier

/-- Query and fragment characters: `pchar` plus slash and question mark. -/
def queryFragRun : Str → Bool := pctRun [':', '@', '/', '?']

/-- Modelled from the spec: the whole-string URI grammar of the absent
`urivalidate` module (RFC 3986 `URI = scheme ":" hier-part ["?" query]
["#" fragment]`). -/
def uriGrammar (s : Str) : Bool :=
  let body := s.takeWhile (fun c => c ≠ '#')
  let frag := s.dropWhile (fun c => c ≠ '#')
  let bq := body.takeWhile (fun c => c ≠ '?')
  let qu := body.dropWhile (fun c => c ≠ '?')
  let scheme := bq.takeWhile (fun c => c ≠ ':')
  let rest := bq.dropWhile (fun c => c ≠ ':')
  match rest with
  | [] => false
  | _ :: hier =>
    schemeOk scheme && hierOk hier &&
    (qu = [] || queryFragRun (qu.drop 1)) &&
    (frag = [] || queryFragRun (frag.drop 1))

/-- `tools.is_uri`: in this source tree, exactly a whole-string grammar match. -/
def is_uri (s : Str) : Bool := uriGrammar s

/-!  ## CPython `urllib` helpers used by the package (modelled faithfully for
ASCII input; percent-decoding is byte-wise, and the IPv6-bracket `ValueError`
check of `urlsplit` is not modelled). -/

/-- Uppercase hexadecimal digit of a value below 16. -/
def hexDigitUpper (n : Nat) : Char :=
  if n < 10 then Char.ofNat (48 + n) else Char.ofNat (55 + n)

/-- UTF-8 bytes of a character. -/
def utf8Bytes (c : Char) : List Nat :=
  let n := c.toNat
  if n < 0x80 then [n]
  else if n < 0x800 then [0xC0 + n / 64, 0x80 + n % 64]
  else if n < 0x10000 then [0xE0 + n / 4096, 0x80 + (n / 64) % 64, 0x80 + n % 64]
  else [0xF0 + n / 262144, 0x80 + (n / 4096) % 64, 0x80 + (n / 64) % 64, 0x80 + n % 64]

/-- Characters `urllib.parse.quote` never encodes. -/
def quoteAlwaysSafe (c : Char) : Bool :=
  c.isAlpha || c.isDigit || c = '_' || c = '.' || c = '-' || c = '~'

/-- Percent-encoding of one character under `quote`'s default `safe="/"`. -/
def pctQuoteChar (c : Char) : Str :=
  if quoteAlwaysSafe c || c = '/' then [c]
  else (utf8Bytes c).flatMap (fun b => ['%', hexDigitUpper (b / 16), hexDigitUpper (b % 16)])

/-- `urllib.parse.quote` with default arguments; on POSIX this is also
`urllib.request.pathname2url`. -/
def pathname2url (s : Str) : Str := s.flatMap pctQuoteChar

/-- Numeric value of a hexadecimal digit. -/
def hexVal (c : Char) : Nat :=
  if c.isDigit then c.toNat - 48
  else if 'a' ≤ c && c ≤ 'f' then c.toNat - 87
  else c.toNat - 55

/-- `urllib.parse.unquote`, byte-wise (invalid escapes are kept literally);
on POSIX this is also `urllib.request.url2pathname`. -/
def pctUnquote : Str → Str
  | [] => []
  | '%' :: a :: b :: t =>
    if isHexDig a && isHexDig b then Char.ofNat (16 * hexVal a + hexVal b) :: pctUnquote t
    else '%' :: pctUnquote (a :: b :: t)
  | c :: t => c :: pctUnquote t

/-- Result of `urllib.parse.urlsplit`. -/
structure SplitResult where
  scheme : Str
  netloc : Str
  path : Str
  query : Str
  fragment : Str
deriving DecidableEq, Repr

/-- Characters allowed in a scheme by `urlsplit`. -/
def urlSchemeChar (c : Char) : Bool :=
  c.isAlpha || c.isDigit || c = '+' || c = '-' || c = '.'

/-- CPython `urllib.parse.urlsplit` with default arguments. -/
def pyUrlsplit (url0 : Str) : SplitResult :=
  let url1 := url0.dropWhile (fun c => c.toNat ≤ 0x20)
  let url2 := url1.filter (fun c => !(c = '\t' || c = '\x0d' || c = '\n'))
  let schemeSplit : Str × Str :=
    match firstOccIdx [':'] url2 with
    | some i =>
      if 0 < i ∧ (url2.headD ' ').isAlpha ∧ (url2.take i).all urlSchemeChar then
        (pyLower (url2.take i), url2.drop (i + 1))
      else ([], url2)
    | none => ([], url2)
  let scheme := schemeSplit.1
  let url3 := schemeSplit.2
  let netlocSplit : Str × Str :=
    if url3.take 2 = ['/', '/'] then
      ((url3.drop 2).takeWhile (fun c => !(c = '/' || c = '?' || c = '#')),
       (url3.drop 2).dropWhile (fun c => !(c = '/' || c = '?' || c = '#')))
    else ([], url3)
  let netloc := netlocSplit.1
  let url4 := netlocSplit.2
  let fragSplit : Str × Str :=
    if '#' ∈ url4 then
      (url4.takeWhile (fun c => c ≠ '#'), (url4.dropWhile (fun c => c ≠ '#')).drop 1)
    else (url4, [])
  let url5 := fragSplit.1
  let fragment := fragSplit.2
  let querySplit : Str × Str :=
    if '?' ∈ url5 then
      (url5.takeWhile (fun c => c ≠ '?'), (url5.dropWhile (fun c => c ≠ '?')).drop 1)
    else (url5, [])
  ⟨scheme, netloc, querySplit.1, querySplit.2, fragment⟩

/-- Result of `urllib.parse.urlparse`. -/
structure ParseResult where
  scheme : Str
  netloc : Str
  path : Str
  params : Str
  query : Str
  fragment : Str
deriving DecidableEq, Repr

/-- Schemes for which `urlparse` splits parameters (`uses_params`). -/
def uses_params : List Str :=
  ["", "ftp", "hdl", "prospero", "http", "imap", "https", "shttp", "rtsp",
   "rtsps", "rtspu", "sip", "sips", "mms", "sftp", "tel"].map String.toList

/-- Schemes `urlunsplit` treats as using a network location (`uses_netloc`). -/
def uses_netloc : List Str :=
  ["", "ftp", "http", "gopher", "nntp", "telnet", "imap", "wais", "file", "mms",
   "https", "shttp", "snews", "prospero", "rtsp", "rtsps", "rtspu", "rsync",
   "svn", "svn+ssh", "sftp", "nfs", "git", "git+ssh", "ws", "wss"].map String.toList

/-- Python `str.rfind` for a single character, as an Option. -/
def lastOccIdx (c : Char) (s : Str) : Option Nat :=
  (firstOccIdx [c] s.reverse).map (fun i => s.length - 1 - i)

/-- CPython `urllib.parse._splitparams`. -/
def splitparams (url : Str) : Str × Str :=
  if '/' ∈ url then
    match lastOccIdx '/' url with
    | none => (url, [])
    | some r =>
      match firstOccIdx [';'] (url.drop r) with
      | none => (url, [])
      | some k => (url.take (r + k), url.drop (r + k + 1))
  else
    match firstOccIdx [';'] url with
    | none => (url, [])
    | some i => (url.take i, url.drop (i + 1))

/-- CPython `urllib.parse.urlparse` with default arguments. -/
def pyUrlparse (url : Str) : ParseResult :=
  let sr := pyUrlsplit url
  let pp : Str × Str :=
    if sr.scheme ∈ uses_params ∧ ';' ∈ sr.path then splitparams sr.path
    else (sr.path, [])
  ⟨sr.scheme, sr.netloc, pp.1, pp.2, sr.query, sr.fragment⟩

/-- CPython `urllib.parse.urlunsplit`. -/
def pyUrlunsplit (scheme netloc url query fragment : Str) : Str :=
  let u1 :=
    if netloc ≠ [] ∨ (scheme ≠ [] ∧ scheme ∈ uses_netloc ∧ url.take 2 ≠ ['/', '/']) then
      ['/', '/'] ++ netloc ++ (if url ≠ [] ∧ url.take 1 ≠ ['/'] then '/' :: url else url)
    else url
  let u2 := if scheme ≠ [] then scheme ++ [':'] ++ u1 else u1
  let u3 := if query ≠ [] then u2 ++ ['?'] ++ query else u2
  if fragment ≠ [] then u3 ++ ['#'] ++ fragment else u3

/-- CPython `urllib.parse.urlunparse`. -/
def pyUrlunparse (pr : ParseResult) : Str :=
  pyUrlunsplit pr.scheme pr.netloc
    (if pr.params ≠ [] then pr.path ++ [';'] ++ pr.params else pr.path)
    pr.query pr.fragment

/-!  ## `pathlib` pure POSIX paths (the subset the engine relies on)

A path is its anchor flag plus its list of components; parsing drops empty
and `.` components, as `PurePosixPath` does.  (The `pathlib` special case of
a double leading slash is not modelled; no engine input produces one.) -/

/-- A parsed POSIX path: whether it is anchored at the root, and its parts. -/
structure PyPath where
  absolute : Bool
  parts : List Str
deriving DecidableEq, Repr

/-- `pathlib.PurePosixPath(s)`. -/
def parsePyPath (s : Str) : PyPath :=
  ⟨s.take 1 = ['/'], (splitOnChar '/' s).filter (fun seg => seg ≠ [] ∧ seg ≠ ['.'])⟩

/-- `str()` of a `PurePosixPath`. -/
def renderPyPath (p : PyPath) : Str :=
  if p.absolute then '/' :: List.intercalate ['/'] p.parts
  else if p.parts = [] then ['.']
  else List.intercalate ['/'] p.parts

/-- `PurePosixPath.parent`. -/
def pyParent (p : PyPath) : PyPath := ⟨p.absolute, p.parts.dropLast⟩

/-- `Path.as_uri()`: percent-encode an absolute path into a `file://` URI;
`none` models the `ValueError` raised on a relative path. -/
def pyAsUri (p : PyPath) : Option Str :=
  if p.absolute then some ("file://".toList ++ pathname2url (renderPyPath p)) else none

/-- The `cannot_open_uris` constant from `showinfm/constants.py`. -/
def cannot_open_uris : List Str := ["fman", "fman.exe"].map String.toList

/-- The `single_file_only` constant from `showinfm/constants.py`. -/
def single_file_only : List Str :=
  ["explorer.exe", "pcmanfm", "open", "cutefish-filemanager"].map String.toList

/-- The `Platform` enumeration from `showinfm/constants.py`. -/
inductive SPlatform where
  | windows | linux | macos
deriving DecidableEq, Repr

/-- Modelled from the spec: `tools.filemanager_requires_path` is absent from
the tree (only its callers remain); per spec section 4.3 it is "true if the
platform is Windows, or `name` is in the `cannot_open_uris` set". -/
def filemanager_requires_path (plat : SPlatform) (fm : Str) : Bool :=
  plat = SPlatform.windows || fm ∈ cannot_open_uris

/-- `tools.file_uri_to_path` on a POSIX host: asserts a `file:` scheme
(`none` models the `AssertionError`), empties a local authority, rejects a
non-local authority (`none` models the `ValueError`), then percent-decodes.
The Windows UNC branch is not modelled (the callers proved about run on
Linux). -/
def file_uri_to_path (url : Str) : Option Str :=
  if "file:".toList.isPrefixOf url then
    let sr := pyUrlsplit url
    if sr.netloc = [] ∨ sr.netloc = "localhost".toList then some (pctUnquote sr.path)
    else none
  else none

/-!  ## `showinfm/system/linux.py`: the WSL path/URI translator

External effects are oracle parameters: `pexists`/`isdir` answer
`Path.exists()`/`Path.is_dir()` on a rendered path string, `resolveStr` is
`str(Path(s).resolve())`, and `wslToLinux`/`wslToWin` are `wslpath -u` /
`wslpath -w` (with `none` modelling a `CalledProcessError`).  A `none` overall
result models an uncaught Python exception (a failed `assert` in
`wsl_path_to_uri_for_windows_explorer`, or an `IndexError` when trailing-slash
trimming indexes an empty string). -/

/-- Oracles for the filesystem and the external `wslpath` helper. -/
structure FsOracles where
  pexists : Str → Bool
  isdir : Str → Bool
  resolveStr : Str → Str
  wslToLinux : Str → Option Str
  wslToWin : Str → Option Str

/-- `linux.wsl_path_to_uri_for_windows_explorer`; `none` models a failed
`assert`. -/
def wsl_path_to_uri_for_windows_explorer (path : Str) : Option Str :=
  if ['\\', '\\'].isPrefixOf path then none
  else if "/mnt/".toList.isPrefixOf path then
    let q := pathname2url path
    some ("file://".toList ++ ((q.drop 4).take 2 ++ [':'] ++ q.drop 6))
  else none

/-- The result record `linux.WSLTransformPathURI`. -/
structure WSLTransformPathURI where
  is_win_location : Option Bool
  win_uri : Option Str
  win_path : Option Str
  linux_path : Option Str
  is_dir : Option Bool
  file_exists : Bool
deriving DecidableEq, Repr

/-- Whether `PureWindowsPath(path).drive` is a drive letter (a letter followed
by a colon). -/
def pureWindowsDriveLetter (path : Str) : Bool :=
  match path with
  | a :: b :: _ => a.isAlpha && b = ':'
  | _ => false

/-- Whether `PureWindowsPath(path).drive` is a UNC share root (two leading
separators, a nonempty host, a separator, and a share not starting with a
further separator), i.e. the `is_unc` test `drive[:2] == "\\\\"`. -/
def pureWindowsUnc (path : Str) : Bool :=
  match path.map (fun c => if c = '/' then '\\' else c) with
  | '\\' :: '\\' :: rest =>
    let host := rest.takeWhile (fun c => c ≠ '\\')
    let after := rest.dropWhile (fun c => c ≠ '\\')
    host ≠ [] && after ≠ [] && (after.drop 1).take 1 ≠ ['\\']
  | _ => false

/-- Replace every space with `%20` (Python `s.replace(" ", "%20")`). -/
def encodeSpaces (s : Str) : Str :=
  s.flatMap (fun c => if c = ' ' then "%20".toList else [c])

/-- Replace every backslash with a forward slash. -/
def backToFwd (s : Str) : Str :=
  s.map (fun c => if c = '\\' then '/' else c)

/-- The input-classification phase of `wsl_transform_path_uri` (everything
before the `if linux_path is None` evaluation): yields
`(win_uri, win_path, linux_path)`.  The `exists = False` assignments in this
phase are no-ops since `exists` starts out `False`. -/
def wslClassify (o : FsOracles) (pu : Str) : Option (Option Str × Option Str × Option Str) :=
  if "file:/".toList.isPrefixOf pu then
    let parsed := pyUrlsplit pu
    let path0 := pctUnquote parsed.path
    let netloc := parsed.netloc
    let cond1 := 2 < path0.length ∧ path0.take 1 = ['/']
      ∧ ((path0.drop 1).headD ' ').isAlpha ∧ (path0.drop 2).take 1 = [':']
    let path := if cond1 then path0.drop 1 else path0
    if cond1 ∨ (netloc ≠ [] ∧ netloc ≠ "localhost".toList) then
      some (some (encodeSpaces pu), some path, o.wslToLinux path)
    else some (none, none, some path)
  else
    if pu.take 1 = ['/'] ∧ ¬("/mnt".toList.isPrefixOf pu) then some (none, none, some pu)
    else if pureWindowsDriveLetter pu ∨ pureWindowsUnc pu then
      let lp := o.wslToLinux pu
      if pureWindowsUnc pu then
        some (some ("file:".toList ++ pathname2url (backToFwd pu)), some pu, lp)
      else
        match lp with
        | some l =>
          (wsl_path_to_uri_for_windows_explorer l).map (fun wu => (some wu, some pu, some l))
        | none => some (none, some pu, none)
    else some (none, none, some (o.resolveStr pu))

/-- Trailing-slash / trailing-backslash normalization applied to directories;
`none` models the `IndexError` of indexing `[-1]` on an empty string. -/
def wslTrim (sep : Char) (add : Bool) (s : Str) : Option Str :=
  match s.getLast? with
  | none => none
  | some c =>
    if add then (if c ≠ sep then some (s ++ [sep]) else some s)
    else (if c = sep then some s.dropLast else some s)

/-- The Windows-side generation step of `wsl_transform_path_uri` (the body of
`if generate_win_path or is_win_location` under `if exists`), producing the
updated `(win_uri, win_path, exists)`; `none` models the failed `assert` in
`wsl_path_to_uri_for_windows_explorer`. -/
def wslWinGen (o : FsOracles) (generate_win_path : Bool) (wu0 wp0 : Option Str)
    (lp : Str) (iswin : Bool) : Option (Option Str × Option Str × Bool) :=
  if generate_win_path ∨ iswin then
    let wpEx : Option Str × Bool :=
      match o.wslToWin lp with
      | some w => (some w, true)
      | none => (wp0, false)
    let wp := wpEx.1
    let ex2 := wpEx.2
    if (match wp with | some w => w ≠ [] | none => false : Bool) && wu0.isNone then
      if ¬ iswin then
        some (wp.map (fun w => "file:".toList ++ pathname2url (backToFwd w)), wp, ex2)
      else
        match wsl_path_to_uri_for_windows_explorer lp with
        | none => none
        | some u => some (some u, wp, ex2)
    else some (wu0, wp, ex2)
  else some (wu0, wp0, true)

/-- The directory-normalization step of `wsl_transform_path_uri` and the
assembly of the result record. -/
def wslDirFinish (lp : Str) (wu wp : Option Str) (iswin isdirb ex2 : Bool) :
    Option WSLTransformPathURI :=
  if isdirb then
    match wslTrim '/' false lp with
    | none => none
    | some lp2 =>
      let wp2 : Option (Option Str) :=
        match wp with
        | none => some none
        | some w => (wslTrim '\\' false w).map some
      let wu2 : Option (Option Str) :=
        match wu with
        | none => some none
        | some u => (wslTrim '/' true u).map some
      match wp2, wu2 with
      | some wpv, some wuv => some ⟨some iswin, wuv, wpv, some lp2, some isdirb, ex2⟩
      | _, _ => none
  else some ⟨some iswin, wu, wp, some lp, some isdirb, ex2⟩

/-- The evaluation phase of `wsl_transform_path_uri`: existence and directory
status against the Linux path, Windows path/URI generation, and directory
normalization. -/
def wslEvaluate (o : FsOracles) (generate_win_path : Bool)
    (t : Option Str × Option Str × Option Str) : Option WSLTransformPathURI :=
  match t.2.2 with
  | none => some ⟨none, t.1, t.2.1, none, none, false⟩
  | some lp =>
    let iswin := "/mnt/".toList.isPrefixOf lp
    if o.pexists lp then
      match wslWinGen o generate_win_path t.1 t.2.1 lp iswin with
      | none => none
      | some (wu, wp, ex2) => wslDirFinish lp wu wp iswin (o.isdir lp) ex2
    else some ⟨some iswin, t.1, t.2.1, some lp, none, false⟩

/-- `linux.wsl_transform_path_uri`, with external effects supplied by the
oracles. -/
def wsl_transform_path_uri (o : FsOracles) (pu : Str) (generate_win_path : Bool) :
    Option WSLTransformPathURI :=
  match wslClassify o pu with
  | none => none
  | some t => wslEvaluate o generate_win_path t

/-!  ## `showinfm/filemanager.py`: the orchestration engine

Launches are recorded as a list of actions; each `Popen` call is kept as the
command string it was built from.  A `none` engine result models an uncaught
Python exception (a failed `assert`, or a `ValueError`/`AssertionError` from
the toolkit helpers). -/

/-- One external action performed by `FileManager._launch`. -/
inductive LaunchAction where
  | popen (cmd : Str)
  | nativeSelect (paths : List Str)
  | startFile (dir : Str)
deriving DecidableEq, Repr

/-- The accumulating per-call lists of the `FileManager` orchestrator. -/
structure FMState where
  locations : List Str
  directories : List Str
  wsl_windows_paths : List Str
  wsl_windows_directories : List Str
deriving DecidableEq, Repr

/-- The `ProcessPathOrUri` named tuple. -/
structure ProcessPathOrUri where
  fully_processed : Bool
  path : Option PyPath
  uri : Option Str
deriving DecidableEq, Repr

/-- Process-wide platform and WSL flags as seen by the engine. -/
structure EngineEnv where
  platform : SPlatform
  wsl : Bool
  wsl1 : Bool
  wsl2 : Bool
deriving DecidableEq, Repr

/-- `tools.quote_path`, dispatching on the platform. -/
def quote_path (plat : SPlatform) (s : Str) : Option Str :=
  if plat = SPlatform.windows then some (quote_path_windows s) else quote_path_posix s

/-- `windows.windows_file_manager_type`. -/
def windows_file_manager_type (fm : Str) : FileManagerType :=
  if fm = "explorer.exe".toList then FileManagerType.win_select
  else if fm = "doublecmd.exe".toList ∨ fm = "fman.exe".toList then FileManagerType.dual_panel
  else FileManagerType.regular

/-- `filemanager._file_manager_type` (the raising branch is unreachable for
the three supported platforms). -/
def file_manager_type_of (env : EngineEnv) (cajaProbe : Option Str) (fm : Str) :
    FileManagerType :=
  if env.platform = SPlatform.windows ∨ env.wsl1 then windows_file_manager_type fm
  else if env.platform = SPlatform.linux then linux_file_manager_type fm cajaProbe
  else FileManagerType.reveal

/-- `Path(s).resolve()` through the `resolveStr` oracle. -/
def resolveAsPath (o : FsOracles) (s : Str) : PyPath := parsePyPath (o.resolveStr s)

/-- `Path(s).resolve().as_uri()`; `none` models the `ValueError` raised when
the resolved path is not absolute. -/
def resolveAsUriStr (o : FsOracles) (s : Str) : Option Str := pyAsUri (resolveAsPath o s)

/-- `str(path)` where the Python variable may hold `None`. -/
def pyStrOfPathOpt (p? : Option PyPath) : Str :=
  match p? with
  | some p => renderPyPath p
  | none => "None".toList

/-- `FileManager._process_path_or_uri_non_wsl`. -/
def process_non_wsl (o : FsOracles) (plat : SPlatform) (fm : Str)
    (allow_conversion : Bool) (pu : Str) : Option ProcessPathOrUri :=
  let requires := filemanager_requires_path plat fm
  let pr? : Option (Option PyPath × Option Str) :=
    if is_uri pu then
      if requires && allow_conversion then
        (file_uri_to_path pu).map (fun s => (some (parsePyPath s), none))
      else some (none, some pu)
    else
      if requires || !allow_conversion then some (some (parsePyPath pu), none)
      else (resolveAsUriStr o pu).map (fun u => (none, some u))
  match pr? with
  | none => none
  | some (path?, uri?) =>
    let haserror? : Option Bool :=
      match path? with
      | some p => some (!(o.pexists (renderPyPath p)))
      | none => (file_uri_to_path pu).map (fun s => !(o.pexists (renderPyPath (parsePyPath s))))
    haserror?.map (fun h => ⟨h, path?, uri?⟩)

/-- `FileManager._process_path_or_uri_wsl`; besides the `ProcessPathOrUri`
result it yields the elements appended to the two WSL Windows-side lists. -/
def process_wsl (o : FsOracles) (plat : SPlatform) (fmSpecified : Bool) (fm : Str)
    (open_not_select_directory : Bool) (pu : Str) :
    Option (ProcessPathOrUri × List Str × List Str) :=
  let require_win_path := fm = "explorer.exe".toList
  match wsl_transform_path_uri o pu require_win_path with
  | none => none
  | some wd =>
    if !wd.file_exists then some (⟨true, none, none⟩, [], [])
    else
      if (wd.is_win_location = some true ∧ ¬fmSpecified) ∨ fm = "explorer.exe".toList then
        match wd.win_uri with
        | none => some (⟨true, none, none⟩, [], [])
        | some wu =>
          if ¬(wd.is_dir = some true ∧ open_not_select_directory) then
            some (⟨true, none, none⟩, [wu], [])
          else some (⟨true, none, none⟩, [], [wu])
      else
        match wd.linux_path with
        | none => some (⟨true, none, none⟩, [], [])
        | some lp =>
          if filemanager_requires_path plat fm then
            some (⟨false, some (resolveAsPath o lp), none⟩, [], [])
          else
            (resolveAsUriStr o lp).map (fun u => (⟨false, none, some u⟩, [], []))

/-- `FileManager._process_path_or_uri_no_select`: computes the entry appended
to the `locations` list; `none` models a failed `assert` or quoting error. -/
def process_no_select (o : FsOracles) (plat : SPlatform)
    (open_not_select_directory : Bool) (path? : Option PyPath) (uri? : Option Str) :
    Option Str :=
  if plat = SPlatform.windows then none
  else
    match uri? with
    | some u =>
      let pr := pyUrlparse u
      let p0 := parsePyPath pr.path
      let p1 :=
        if o.isdir (renderPyPath p0) ∧ open_not_select_directory then p0 else pyParent p0
      let u2 := pyUrlunparse { pr with path := renderPyPath p1 }
      some (if u2 = [] then renderPyPath p1 else u2)
    | none =>
      match path? with
      | none => none
      | some p =>
        let p1 :=
          if o.isdir (renderPyPath p) ∧ open_not_select_directory then p else pyParent p
        quote_path plat (renderPyPath p1)

/-- `FileManager._process_path_or_uri_can_select`: computes the entries
appended to the `directories` and `locations` lists (in that order). -/
def process_can_select (o : FsOracles) (plat : SPlatform) (fm : Str)
    (ftype? : Option FileManagerType) (open_not_select_directory : Bool)
    (path? : Option PyPath) (uri? : Option Str) : Option (List Str × List Str) :=
  let big := (open_not_select_directory ∧ ftype? ≠ some FileManagerType.dual_panel)
    ∨ ftype? = some FileManagerType.regular
  let st1 : Option (Option PyPath × Bool) :=
    if big then
      match uri? with
      | some u =>
        (file_uri_to_path u).map (fun s =>
          let p := parsePyPath s
          (some p, o.isdir (renderPyPath p)))
      | none =>
        match path? with
        | none => none
        | some p => some (some p, o.isdir (renderPyPath p))
    else some (path?, false)
  match st1 with
  | none => none
  | some (pv, is_directory) =>
    if is_directory then
      let parentStep : Option (Option PyPath × Option Str) :=
        if ftype? = some FileManagerType.regular ∧ ¬open_not_select_directory then
          match pv with
          | none => none
          | some p =>
            let p2 := pyParent p
            match uri? with
            | some _ =>
              match pyAsUri p2 with
              | none => none
              | some u2 => some (some p2, some u2)
            | none => some (some p2, none)
        else some (pv, uri?)
      match parentStep with
      | none => none
      | some (pv2, uv2) =>
        match uv2 with
        | none =>
          match pv2 with
          | none => none
          | some p => (quote_path plat (renderPyPath p)).map (fun q => ([q], []))
        | some u2 => some ([if u2 = [] then pyStrOfPathOpt pv2 else u2], [])
    else
      match uri? with
      | some u => some ([], [if u = [] then pyStrOfPathOpt pv else u])
      | none =>
        if fm ≠ "explorer.exe".toList then
          match pv with
          | none => none
          | some p => (quote_path plat (renderPyPath p)).map (fun q => ([], [q]))
        else some ([], [pyStrOfPathOpt pv])

/-- One iteration of the loop in `FileManager._process_path_or_uri`. -/
def process_one (o : FsOracles) (env : EngineEnv) (fmSpecified : Bool) (fm : Str)
    (ftype? : Option FileManagerType) (open_not_select_directory allow_conversion : Bool)
    (st : FMState) (pu : Str) : Option FMState :=
  let step : Option (ProcessPathOrUri × List Str × List Str) :=
    if env.wsl then
      process_wsl o env.platform fmSpecified fm open_not_select_directory pu
    else (process_non_wsl o env.platform fm allow_conversion pu).map (fun r => (r, [], []))
  match step with
  | none => none
  | some (r, wp, wd) =>
    let st1 := { st with
      wsl_windows_paths := st.wsl_windows_paths ++ wp,
      wsl_windows_directories := st.wsl_windows_directories ++ wd }
    if r.fully_processed then some st1
    else if r.path = none ∧ r.uri = none then none
    else if ftype? = some FileManagerType.dir_only_uri then
      (process_no_select o env.platform open_not_select_directory r.path r.uri).map
        (fun entry => { st1 with locations := st1.locations ++ [entry] })
    else
      (process_can_select o env.platform fm ftype? open_not_select_directory r.path r.uri).map
        (fun da => { st1 with
          directories := st1.directories ++ da.1,
          locations := st1.locations ++ da.2 })

/-- `FileManager._process_path_or_uri`: fold over the supplied inputs,
dropping falsy (empty) entries. -/
def process_all (o : FsOracles) (env : EngineEnv) (fmSpecified : Bool) (fm : Str)
    (ftype? : Option FileManagerType) (open_not_select_directory allow_conversion : Bool)
    (st : FMState) : List Str → Option FMState
  | [] => some st
  | pu :: rest =>
    if pu = [] then
      process_all o env fmSpecified fm ftype? open_not_select_directory allow_conversion st rest
    else
      match process_one o env fmSpecified fm ftype? open_not_select_directory
          allow_conversion st pu with
      | none => none
      | some st2 =>
        process_all o env fmSpecified fm ftype? open_not_select_directory allow_conversion
          st2 rest

/-- `FileManager._set_file_manager_argument`. -/
def set_file_manager_argument (ftype? : Option FileManagerType) : Str :=
  match ftype? with
  | some FileManagerType.win_select => "/select,".toList
  | some FileManagerType.select => "--select ".toList
  | some FileManagerType.show_item => "--show-item ".toList
  | some FileManagerType.show_items => "--show-items ".toList
  | some FileManagerType.reveal => "--reveal ".toList
  | _ => []

/-- `FileManager._launch_file_manager`: one `Popen` per list element, with
the command string built as the executable, a space, the argument fragment,
and the target. -/
def launch_file_manager_cmds (fm arg : Str) (lst : List Str) : List LaunchAction :=
  lst.map (fun u => LaunchAction.popen (fm ++ [' '] ++ arg ++ u))

/-- Join list entries with single spaces (`" ".join(entries)`). -/
def joinSpace (l : List Str) : Str := List.intercalate [' '] l

/-- `FileManager._launch`. -/
def fm_launch (env : EngineEnv) (fm arg : Str) (st : FMState) : List LaunchAction :=
  (if env.platform = SPlatform.windows ∧ ¬env.wsl ∧ fm = "explorer.exe".toList then
    (if st.locations ≠ [] then [LaunchAction.nativeSelect st.locations] else [])
      ++ st.directories.map LaunchAction.startFile
   else
    (if st.locations ≠ [] then
      launch_file_manager_cmds fm arg
        (if fm ∈ single_file_only then st.locations else [joinSpace st.locations])
     else [])
    ++ (if st.directories ≠ [] then
      launch_file_manager_cmds fm []
        (if fm ∈ single_file_only then st.directories else [joinSpace st.directories])
     else [])
    ++ launch_file_manager_cmds "explorer.exe".toList "/select,".toList st.wsl_windows_paths
    ++ launch_file_manager_cmds "explorer.exe".toList [] st.wsl_windows_directories)
  ++ (if st.locations = [] ∧ st.directories = [] ∧ st.wsl_windows_paths = []
        ∧ st.wsl_windows_directories = [] then
      launch_file_manager_cmds fm [] [[]]
     else [])

/-- `FileManager.show_in_file_manager` (the unified engine): resolves the
target executable (the cached probe outcome is passed in as
`validFm`/`validType`), applies the no-file-manager gate, classifies the
inputs, and launches.  The result is the list of performed launch actions,
`some []` being a successful no-op return. -/
def fm_show_in_file_manager (o : FsOracles) (env : EngineEnv) (cajaProbe : Option Str)
    (validFm : Option Str) (validType : Option FileManagerType)
    (path_or_uri : List Str) (open_not_select_directory : Bool)
    (file_manager : Option Str) (allow_conversion : Bool) :
    Option (List LaunchAction) :=
  let fmSpecified := file_manager.isSome
  let resolved : Option Str × Option FileManagerType :=
    match file_manager with
    | none => (validFm, validType)
    | some f =>
      if f = [] then (validFm, validType)
      else (some f, some (file_manager_type_of env cajaProbe f))
  match resolved.1 with
  | none => some []
  | some f =>
    if f = [] then some []
    else
      let inputs :=
        if path_or_uri = [] ∧ env.platform = SPlatform.macos then ["file:///".toList]
        else path_or_uri
      match process_all o env fmSpecified f resolved.2 open_not_select_directory
          allow_conversion ⟨[], [], [], []⟩ inputs with
      | none => none
      | some st => some (fm_launch env f (set_file_manager_argument resolved.2) st)

/-- An oracle describing a filesystem on which no queried path exists. -/
def noFileOracles : FsOracles where
  pexists := fun _ => false
  isdir := fun _ => false
  resolveStr := id
  wslToLinux := fun _ => none
  wslToWin := fun _ => none

/-- An oracle describing a filesystem on which every queried path exists as a
plain file (nothing is a directory). -/
def allFilesOracles : FsOracles where
  pexists := fun _ => true
  isdir := fun _ => false
  resolveStr := id
  wslToLinux := fun _ => none
  wslToWin := fun _ => none

/-- The early-return gate of the sibling facade revision
(`showinfm/showinfm.py`, line `if not (file_manager or is_wsl2): return`):
true when that revision returns without doing anything. -/
def showinfm_facade_early_return (file_manager : Option Str) (wsl2flag : Bool) : Bool :=
  !((match file_manager with
     | none => false
     | some f => f ≠ []) || wsl2flag)

/-- An oracle for a WSL host on which `C:\Program Files` exists as a directory
mounted at `/mnt/c/Program Files`, with `wslpath` translating between the two. -/
def programFilesOracles : FsOracles where
  pexists := fun s => s = "/mnt/c/Program Files".toList
  isdir := fun s => s = "/mnt/c/Program Files".toList
  resolveStr := id
  wslToLinux := fun s =>
    if s = "C:\\Program Files".toList then some "/mnt/c/Program Files".toList else none
  wslToWin := fun s =>
    if s = "/mnt/c/Program Files".toList then some "C:\\Program Files".toList else none
theorem firstOccIdx_eq_zero_iff (pat s : Str) :
    firstOccIdx pat s = some 0 ↔ pat.isPrefixOf s = true := by
  cases s with
  | nil =>
    cases pat <;> simp [firstOccIdx, List.isPrefixOf]
  | cons c rest =>
    unfold firstOccIdx
    split
    · simp_all
    · simp_all

theorem pyFind_pos_iff (pat s : Str) :
    pyFind pat s > 0 ↔ ∃ i, firstOccIdx pat s = some i ∧ 0 < i := by
  unfold pyFind
  cases h : firstOccIdx pat s with
  | none => simp
  | some n => simp [Int.natCast_pos]

theorem pyFind_ne_zero_iff (pat s : Str) :
    pyFind pat s ≠ 0 ↔ ¬ (pat.isPrefixOf s = true) := by
  rw [← firstOccIdx_eq_zero_iff]
  unfold pyFind
  cases h : firstOccIdx pat s with
  | none => simp
  | some n => simp [Int.natCast_eq_zero]

theorem wsl_version_eq_wsl2_iff (p : Str) :
    wsl_version p = some LinuxDesktop.wsl2 ↔
      (pyFind "microsoft".toList p > 0 ∧ pyFind "WSL2".toList p ≠ 0) := by
  unfold wsl_version
  split
  · simp_all
  · split <;> simp_all

/-- C3 (amended): the process is classified as WSL exactly when the first
occurrence of `"microsoft"` in the lowercased `/proc/version` content is at a
position strictly greater than zero; it is classified as WSL2 exactly when,
in addition, the raw content has a first occurrence of lowercase
`"microsoft"` at a position strictly greater than zero and does not begin
with `"WSL2"` (in particular also when `"WSL2"` is absent); it is WSL1 in the
remaining WSL cases. -/
theorem wsl_detection_characterization : ∀ p : Str,
    (is_wsl p = true ↔ ∃ i, firstOccIdx "microsoft".toList (pyLower p) = some i ∧ 0 < i) ∧
    (is_wsl2 p = true ↔
      ((∃ i, firstOccIdx "microsoft".toList (pyLower p) = some i ∧ 0 < i) ∧
       (∃ j, firstOccIdx "microsoft".toList p = some j ∧ 0 < j) ∧
       ¬ ("WSL2".toList.isPrefixOf p = true))) ∧
    (is_wsl1 p = true ↔
      ((∃ i, firstOccIdx "microsoft".toList (pyLower p) = some i ∧ 0 < i) ∧
       ¬ ((∃ j, firstOccIdx "microsoft".toList p = some j ∧ 0 < j) ∧
          ¬ ("WSL2".toList.isPrefixOf p = true)))) := by
  intro p
  have hw : is_wsl p = true ↔ ∃ i, firstOccIdx "microsoft".toList (pyLower p) = some i ∧ 0 < i := by
    rw [← pyFind_pos_iff]
    simp [is_wsl, detect_wsl]
  have h2 : is_wsl2 p = true ↔
      ((∃ i, firstOccIdx "microsoft".toList (pyLower p) = some i ∧ 0 < i) ∧
       (∃ j, firstOccIdx "microsoft".toList p = some j ∧ 0 < j) ∧
       ¬ ("WSL2".toList.isPrefixOf p = true)) := by
    rw [← pyFind_pos_iff, ← pyFind_pos_iff, ← pyFind_ne_zero_iff]
    simp [is_wsl2, is_wsl, detect_wsl, wsl_version_eq_wsl2_iff, and_assoc]
  refine ⟨hw, h2, ?_⟩
  have h1 : is_wsl1 p = true ↔ (is_wsl p = true ∧ ¬ (is_wsl2 p = true)) := by
    simp [is_wsl1]
  rw [h1, hw, h2]
  exact ⟨fun h => ⟨h.1, fun hbc => h.2 ⟨h.1, hbc⟩⟩, fun h => ⟨h.1, fun habc => h.2 habc.2⟩⟩

/-- C3 (counterexample): on the `/proc/version` content
`"linux microsoft kernel"` the process is classified as WSL, yet it is
classified as WSL2 although the content does not contain `"WSL2"` at all,
refuting the claimed characterization (the code tests the truthiness of
`p.find("WSL2")`, which is `-1` and hence truthy when the marker is absent). -/
theorem wsl_detection_claim_false :
    is_wsl "linux microsoft kernel".toList = true ∧
    ¬ (is_wsl2 "linux microsoft kernel".toList = true ↔
        containsSub "WSL2".toList "linux microsoft kernel".toList = true) := by
  decide

theorem hasCloseQuote_concat (q : Char) :
    ∀ s : Str, (∀ c ∈ s, c ≠ '\n') → hasCloseQuote q (s ++ [q]) = true := by
  intro s
  induction s with
  | nil => intro _; simp [hasCloseQuote]
  | cons c rest ih =>
    intro h
    simp only [List.cons_append, hasCloseQuote]
    split
    · rfl
    · rw [if_neg (h c (by simp))]
      exact ih fun x hx => h x (by simp [hx])

theorem quote_path_posix_idem (s : Str) :
    ∀ q, quote_path_posix s = some q → quote_path_posix q = some q := by
  intro q hq
  cases s with
  | nil => simp [quote_path_posix] at hq
  | cons c rest =>
    rw [quote_path_posix] at hq
    by_cases hw : ((c = '"' || c = apos) && (c :: rest).getLast? = some c) = true
    · rw [if_pos hw] at hq
      obtain rfl : c :: rest = q := by simpa using hq
      rw [quote_path_posix, if_pos hw]
    · rw [if_neg hw] at hq
      obtain rfl : shlexQuote (c :: rest) = q := by simpa using hq
      by_cases hall : (c :: rest).all shlexSafeChar = true
      · have hs : shlexQuote (c :: rest) = c :: rest := by
          rw [shlexQuote, if_neg (by simp), if_pos hall]
        rw [hs, quote_path_posix, if_neg hw, hs]
      · have hs : shlexQuote (c :: rest) =
            apos :: ((c :: rest).flatMap shlexQuoteRepl ++ [apos]) := by
          rw [shlexQuote, if_neg (by simp), if_neg hall]
        rw [hs, quote_path_posix]
        rw [if_pos ?_]
        simp only [Bool.and_eq_true, Bool.or_eq_true]
        constructor
        · right
          rfl
        · rw [show apos :: ((c :: rest).flatMap shlexQuoteRepl ++ [apos]) =
              (apos :: (c :: rest).flatMap shlexQuoteRepl) ++ [apos] by simp]
          rw [List.getLast?_concat]
          decide

theorem quote_path_windows_idem (s : Str) (hn : Char.ofNat 10 ∉ s) :
    quote_path_windows (quote_path_windows s) = quote_path_windows s := by
  have hdq : ∀ l : Str, reMatchWrapped apos ('"' :: l) = false := fun l => rfl
  have hns : ∀ c ∈ s, c ≠ '\n' := by
    intro c hc he
    exact hn (by simpa [he, show Char.ofNat 10 = '\n' from rfl] using hc)
  by_cases h1 : reMatchWrapped apos s = true
  · have hs : quote_path_windows s = '"' :: ((s.drop 1).dropLast ++ ['"']) := by
      rw [quote_path_windows, if_pos h1]
    have hmid : ∀ c ∈ (s.drop 1).dropLast, c ≠ '\n' := fun c hc =>
      hns c (List.drop_subset 1 s (List.dropLast_subset _ hc))
    rw [hs, quote_path_windows, hdq, if_neg (by simp),
      if_pos (by simpa using hasCloseQuote_concat '"' _ hmid)]
  · by_cases h2 : reMatchWrapped '"' s = true
    · have hs : quote_path_windows s = s := by
        rw [quote_path_windows, if_neg h1, if_pos h2]
      rw [hs, hs]
    · have hs : quote_path_windows s = '"' :: (s ++ ['"']) := by
        rw [quote_path_windows, if_neg h1, if_neg h2]
      rw [hs, quote_path_windows, hdq, if_neg (by simp),
        if_pos (by simpa using hasCloseQuote_concat '"' s hns)]

/-- C7 (amended): `quote_path` is idempotent under the Windows rule for every
path string containing no newline, and under the non-Windows (POSIX shlex)
rule whenever it succeeds (i.e. on every nonempty string). -/
theorem quote_path_idempotency : ∀ s : Str,
    (Char.ofNat 10 ∉ s →
      quote_path_windows (quote_path_windows s) = quote_path_windows s) ∧
    (∀ q, quote_path_posix s = some q → quote_path_posix q = some q) :=
  fun s => ⟨quote_path_windows_idem s, quote_path_posix_idem s⟩

/-- C7 (counterexample): the Windows quoting rule is not idempotent on every
path string: applying it twice to the string `"a\nb"` (which contains a
newline, so the unanchored `re.match` with `.` never finds the closing quote)
wraps it in double quotes twice. -/
theorem quote_path_claim_false :
    quote_path_windows (quote_path_windows "a\nb".toList) ≠
      quote_path_windows "a\nb".toList := by
  decide

/-- C7 (amended): `quote_path` is idempotent under the Windows rule for every
path string containing no newline, and under the non-Windows (POSIX shlex)
rule whenever it succeeds (i.e. on every nonempty string). -/
theorem quote_path_idempotency_witness :
    quote_path_windows (quote_path_windows "a b".toList) = quote_path_windows "a b".toList ∧
    quote_path_posix "'a b'".toList = some "'a b'".toList :=
  ⟨(quote_path_idempotency "a b".toList).1 (by decide),
   (quote_path_idempotency "a b".toList).2 "'a b'".toList (by decide)⟩

/-- C9: `caja_supports_select()` returns true exactly when the probed version
output yields, from its first digit onward, a version comparing at least
`1.26`; a probe failure or digit-free output yields false; it is true for the
probed output `"1.26.0"` and false for `"1.24.2"`; and
`linux_file_manager_type "caja"` is `select` when the probe supports select
and `dir_only_uri` otherwise. -/
theorem caja_select_characterization : ∀ probe : Option Str,
    (caja_supports_select probe = true ↔
      ∃ v, caja_version probe = Except.ok (some v) ∧ versionCmp v [1, 26] ≠ Ordering.lt) ∧
    (probe = none → caja_supports_select probe = false) ∧
    (∀ out, probe = some out → firstDigitIdx (pyStrip out) = none →
      caja_supports_select probe = false) ∧
    (linux_file_manager_type "caja".toList probe =
      if caja_supports_select probe then FileManagerType.select
      else FileManagerType.dir_only_uri) ∧
    caja_supports_select (some "1.26.0".toList) = true ∧
    caja_supports_select (some "1.24.2".toList) = false := by
  intro probe
  refine ⟨?_, ?_, ?_, ?_, by decide, by decide⟩
  · unfold caja_supports_select
    cases h : caja_version probe with
    | error e => simp [h]
    | ok v =>
      cases v with
      | none => simp [h]
      | some w => simp [h]
  · intro h
    rw [h]
    decide
  · intro out h hd
    rw [h]
    simp [caja_supports_select, caja_version, hd]
  · cases hs : caja_supports_select probe with
    | true => simp [linux_file_manager_type, hs]
    | false => simp [linux_file_manager_type, hs, lookupFMB, LinuxFileManagerBehavior]

/-- C9: `caja_supports_select()` returns true exactly when the probed version
output yields, from its first digit onward, a version comparing at least
`1.26`; a probe failure or digit-free output yields false; it is true for the
probed output `"1.26.0"` and false for `"1.24.2"`; and
`linux_file_manager_type "caja"` is `select` when the probe supports select
and `dir_only_uri` otherwise. -/
theorem caja_select_characterization_witness :
    caja_supports_select none = false ∧
    caja_supports_select (some "no digits".toList) = false :=
  ⟨(caja_select_characterization none).2.1 rfl,
   (caja_select_characterization (some "no digits".toList)).2.2.1 "no digits".toList rfl
     (by decide)⟩

/-- C8 (counterexample): the string `"camera:/a b"` starts with the literal
`camera:/` yet `is_uri` returns false on it — in this source tree `is_uri`
has no `camera:/` special case, it is only the whole-string grammar match. -/
theorem is_uri_claim_false :
    "camera:/".toList.isPrefixOf "camera:/a b".toList = true ∧
    is_uri "camera:/a b".toList = false := by
  decide

/-- C8 (amended): `is_uri(s)` is exactly the whole-string generic URI grammar
match, with no `camera:/` special case; in particular
`is_uri("camera://device/x")` is true (it matches the grammar),
`is_uri("/home/user/file.txt")` is false, and
`is_uri("file:///home/user/file.txt")` is true. -/
theorem is_uri_characterization :
    (∀ s : Str, is_uri s = uriGrammar s) ∧
    is_uri "camera://device/x".toList = true ∧
    is_uri "/home/user/file.txt".toList = false ∧
    is_uri "file:///home/user/file.txt".toList = true :=
  ⟨fun _ => rfl, by decide, by decide, by decide⟩

/-- C1 (code evaluated at the failing input): in the non-WSL classification
the engine marks a non-existent input as `fully_processed` (the `haserror`
flag is returned in the `fully_processed` field), so the input is skipped —
it contributes nothing to the batch, and a lone missing input yields only the
bare no-argument launch.  This contradicts the claim that non-existent
inputs are kept. -/
theorem non_wsl_missing_input_skipped :
    process_non_wsl noFileOracles SPlatform.linux "fman".toList true
      "/no/such/file.txt".toList =
      some ⟨true, some (parsePyPath "/no/such/file.txt".toList), none⟩ ∧
    fm_show_in_file_manager noFileOracles ⟨SPlatform.linux, false, false, false⟩ none
      none none ["/no/such/file.txt".toList] true (some "fman".toList) true =
      some [LaunchAction.popen "fman ".toList] := by
  decide

/-- C2 (code evaluated at the failing input): when no file manager resolves,
the engine's early-return gate fires for every environment — including under
WSL2 — launching nothing and raising nothing, whereas the sibling facade
revision (`showinfm.py`) suppresses the early return when `is_wsl2` is set.
This contradicts the claim's WSL2 half. -/
theorem engine_no_fm_gate_ignores_wsl2 :
    (∀ (o : FsOracles) (env : EngineEnv) (cajaProbe : Option Str) (inputs : List Str)
      (onsd conv : Bool),
      fm_show_in_file_manager o env cajaProbe none none inputs onsd none conv = some []) ∧
    showinfm_facade_early_return none true = false :=
  ⟨fun _ _ _ _ _ _ => rfl, by decide⟩

/-- C4: at launch time, outside the native-Windows-Explorer branch, a
non-empty `locations` list yields one launch per entry, in input order, when
the file manager is in `single_file_only`, and exactly one launch with all
entries space-joined in input order otherwise; the same rule applies
independently to `directories` (with an empty flag), while the WSL2
Windows-side lists are always launched one entry per process via
`explorer.exe` (itself in `single_file_only`), with the `/select,` flag for
paths and no flag for directories; when everything is empty the bare target
is launched once. -/
theorem launch_batching_characterization :
    ∀ (env : EngineEnv) (fm arg : Str) (locs dirs wp wd : List Str),
    ¬(env.platform = SPlatform.windows ∧ ¬env.wsl ∧ fm = "explorer.exe".toList) →
    fm_launch env fm arg ⟨locs, dirs, wp, wd⟩ =
      (if locs = [] then []
       else if fm ∈ single_file_only then
         locs.map (fun u => LaunchAction.popen (fm ++ [' '] ++ arg ++ u))
       else [LaunchAction.popen (fm ++ [' '] ++ arg ++ joinSpace locs)])
      ++ (if dirs = [] then []
       else if fm ∈ single_file_only then
         dirs.map (fun u => LaunchAction.popen (fm ++ [' '] ++ u))
       else [LaunchAction.popen (fm ++ [' '] ++ joinSpace dirs)])
      ++ wp.map (fun u => LaunchAction.popen ("explorer.exe /select,".toList ++ u))
      ++ wd.map (fun u => LaunchAction.popen ("explorer.exe ".toList ++ u))
      ++ (if locs = [] ∧ dirs = [] ∧ wp = [] ∧ wd = [] then
         [LaunchAction.popen (fm ++ [' '])]
       else []) := by
  intro env fm arg locs dirs wp wd h
  simp only [fm_launch, launch_file_manager_cmds, if_neg h]
  by_cases hl : locs = [] <;> by_cases hd : dirs = [] <;>
    by_cases hm : fm ∈ single_file_only <;>
      simp [hl, hd, hm, List.map_map, Function.comp]

theorem launch_batching_witness :
    fm_launch ⟨SPlatform.linux, false, false, false⟩ "pcmanfm".toList []
      ⟨["p1".toList, "p2".toList, "p3".toList], [], [], []⟩ =
      [LaunchAction.popen "pcmanfm p1".toList, LaunchAction.popen "pcmanfm p2".toList,
       LaunchAction.popen "pcmanfm p3".toList] :=
  (launch_batching_characterization ⟨SPlatform.linux, false, false, false⟩ "pcmanfm".toList
    [] ["p1".toList, "p2".toList, "p3".toList] [] [] [] (by decide)).trans (by decide)

/-- C5: for an input reaching select-vs-open classification with a
`dir_only_uri` file manager, unless the input is an existing directory and
directory-opening is requested, the entry appended to `locations` denotes the
input's parent directory — the URI rebuilt with the parent path, or the
quoted parent path for a plain path — and the argument fragment for
`dir_only_uri` is empty. -/
theorem dir_only_uri_targets_parent :
    ∀ (o : FsOracles) (plat : SPlatform) (onsd : Bool),
    plat ≠ SPlatform.windows →
    (∀ (u : Str) (path? : Option PyPath),
      ¬(o.isdir (renderPyPath (parsePyPath (pyUrlparse u).path)) = true ∧ onsd = true) →
      process_no_select o plat onsd path? (some u) =
        some (let pr := pyUrlparse u
              let p1 := pyParent (parsePyPath pr.path)
              let u2 := pyUrlunparse { pr with path := renderPyPath p1 }
              if u2 = [] then renderPyPath p1 else u2)) ∧
    (∀ p : PyPath,
      ¬(o.isdir (renderPyPath p) = true ∧ onsd = true) →
      process_no_select o plat onsd (some p) none =
        quote_path plat (renderPyPath (pyParent p))) ∧
    set_file_manager_argument (some FileManagerType.dir_only_uri) = [] := by
  intro o plat onsd hplat
  refine ⟨?_, ?_, rfl⟩
  · intro u path? hnd
    simp only [process_no_select, if_neg hplat]
    rw [if_neg hnd]
  · intro p hnd
    simp only [process_no_select, if_neg hplat]
    rw [if_neg hnd]

/-- C5: for an input reaching select-vs-open classification with a
`dir_only_uri` file manager, unless the input is an existing directory and
directory-opening is requested, the entry appended to `locations` denotes the
input's parent directory — the URI rebuilt with the parent path, or the
quoted parent path for a plain path — and the argument fragment for
`dir_only_uri` is empty. -/
theorem dir_only_uri_targets_parent_witness :
    process_no_select allFilesOracles SPlatform.linux true none
      (some "file:///home/user/doc.txt".toList) = some "file:///home/user".toList ∧
    process_no_select allFilesOracles SPlatform.linux true
      (some (parsePyPath "/home/my user/doc.txt".toList)) none =
      some "'/home/my user'".toList :=
  ⟨((dir_only_uri_targets_parent allFilesOracles SPlatform.linux true (by decide)).1
      "file:///home/user/doc.txt".toList none (by decide)).trans (by decide),
   ((dir_only_uri_targets_parent allFilesOracles SPlatform.linux true (by decide)).2.1
      (parsePyPath "/home/my user/doc.txt".toList) (by decide)).trans (by decide)⟩

/-- C6: under WSL with `wslpath` behaving normally and `/mnt/c/Program Files`
an existing directory, transforming the bare Windows path `C:\Program Files`
with Windows-path generation requested yields
`linux_path = "/mnt/c/Program Files"`, `win_path = "C:\Program Files"`,
`win_uri = "file:///c:/Program%20Files/"` with exactly one trailing slash,
`is_win_location = true`, `is_dir = true`, and `exists = true`. -/
theorem wsl_transform_windows_program_files :
    ∀ o : FsOracles,
    o.wslToLinux "C:\\Program Files".toList = some "/mnt/c/Program Files".toList →
    o.wslToWin "/mnt/c/Program Files".toList = some "C:\\Program Files".toList →
    o.pexists "/mnt/c/Program Files".toList = true →
    o.isdir "/mnt/c/Program Files".toList = true →
    wsl_transform_path_uri o "C:\\Program Files".toList true =
      some ⟨some true, some "file:///c:/Program%20Files/".toList,
        some "C:\\Program Files".toList, some "/mnt/c/Program Files".toList,
        some true, true⟩ := by
  intro o hU hW hE hD
  have hc : wslClassify o "C:\\Program Files".toList =
      some (some "file:///c:/Program%20Files".toList, some "C:\\Program Files".toList,
        some "/mnt/c/Program Files".toList) := by
    simp only [wslClassify]
    rw [if_neg (by decide), if_neg (by decide), if_pos (by decide), if_neg (by decide), hU]
    decide
  unfold wsl_transform_path_uri
  rw [hc]
  simp only [wslEvaluate, wslWinGen]
  rw [hE, hW, hD]
  decide

theorem wslClassify_win_pair (o : FsOracles) (pu : Str)
    (t : Option Str × Option Str × Option Str)
    (h : wslClassify o pu = some t) : t.1 ≠ none → t.2.1 ≠ none := by
  simp only [wslClassify] at h
  split at h
  · split at h <;> (injection h with h; subst h; simp)
  · split at h
    · injection h with h; subst h; simp
    · split at h
      · split at h
        · injection h with h; subst h; simp
        · split at h
          · rcases Option.map_eq_some'.mp h with ⟨a, ha, rfl⟩
            simp
          · injection h with h; subst h; simp
      · injection h with h; subst h; simp


theorem wslWinGen_pair (o : FsOracles) (gen : Bool) (wu0 wp0 : Option Str) (lp : Str)
    (iswin : Bool) (wu wp : Option Str) (ex2 : Bool)
    (hwin : wu0 ≠ none → wp0 ≠ none)
    (h : wslWinGen o gen wu0 wp0 lp iswin = some (wu, wp, ex2)) :
    wu ≠ none → wp ≠ none := by
  simp only [wslWinGen] at h
  split at h
  · cases hww : o.wslToWin lp with
    | some w =>
      simp only [hww] at h
      split at h
      · split at h
        · simp only [Option.some.injEq, Prod.mk.injEq] at h
          obtain ⟨rfl, rfl, rfl⟩ := h
          intro _
          simp
        · split at h
          · exact absurd h (by simp)
          · simp only [Option.some.injEq, Prod.mk.injEq] at h
            obtain ⟨rfl, rfl, rfl⟩ := h
            intro _
            simp
      · simp only [Option.some.injEq, Prod.mk.injEq] at h
        obtain ⟨rfl, rfl, rfl⟩ := h
        intro _
        simp
    | none =>
      simp only [hww] at h
      split at h
      · rename_i hcond
        have hwp0 : wp0 ≠ none := by
          revert hcond
          cases wp0 <;> simp
        split at h
        · simp only [Option.some.injEq, Prod.mk.injEq] at h
          obtain ⟨rfl, rfl, rfl⟩ := h
          intro _
          exact hwp0
        · split at h
          · exact absurd h (by simp)
          · simp only [Option.some.injEq, Prod.mk.injEq] at h
            obtain ⟨rfl, rfl, rfl⟩ := h
            intro _
            exact hwp0
      · simp only [Option.some.injEq, Prod.mk.injEq] at h
        obtain ⟨rfl, rfl, rfl⟩ := h
        exact hwin
  · simp only [Option.some.injEq, Prod.mk.injEq] at h
    obtain ⟨rfl, rfl, rfl⟩ := h
    exact hwin

theorem wslDirFinish_invariants (lp : Str) (wu wp : Option Str) (iswin isdirb ex2 : Bool)
    (r : WSLTransformPathURI) (hpair : wu ≠ none → wp ≠ none)
    (h : wslDirFinish lp wu wp iswin isdirb ex2 = some r) :
    (r.linux_path ≠ none → r.is_win_location ≠ none) ∧
    (r.win_uri ≠ none → r.win_path ≠ none) ∧
    (r.file_exists = true → r.is_dir ≠ none) := by
  simp only [wslDirFinish] at h
  split at h
  · split at h
    · exact absurd h (by simp)
    · cases wu with
      | none =>
        cases wp with
        | none =>
          injection h with h
          subst h
          exact ⟨by simp, by simp, by simp⟩
        | some w =>
          cases htw : wslTrim '\\' false w with
          | none => simp [htw] at h
          | some w2 =>
            simp only [htw] at h
            injection h with h
            subst h
            exact ⟨by simp, by simp, by simp⟩
      | some u =>
        cases htu : wslTrim '/' true u with
        | none =>
          cases wp with
          | none => simp [htu] at h
          | some w =>
            cases htw : wslTrim '\\' false w with
            | none => simp [htu, htw] at h
            | some w2 => simp [htu, htw] at h
        | some u2 =>
          have hwp : wp ≠ none := hpair (by simp)
          cases wp with
          | none => exact absurd rfl hwp
          | some w =>
            cases htw : wslTrim '\\' false w with
            | none => simp [htu, htw] at h
            | some w2 =>
              simp only [htu, htw] at h
              injection h with h
              subst h
              exact ⟨by simp, by simp, by simp⟩
  · injection h with h
    subst h
    exact ⟨by simp, by simpa using hpair, by simp⟩

theorem wslEvaluate_invariants (o : FsOracles) (gen : Bool)
    (t : Option Str × Option Str × Option Str) (r : WSLTransformPathURI)
    (hwin : t.1 ≠ none → t.2.1 ≠ none)
    (h : wslEvaluate o gen t = some r) :
    (r.linux_path ≠ none → r.is_win_location ≠ none) ∧
    (r.win_uri ≠ none → r.win_path ≠ none) ∧
    (r.file_exists = true → r.is_dir ≠ none) := by
  simp only [wslEvaluate] at h
  split at h
  · injection h with h
    subst h
    exact ⟨by simp, hwin, by simp⟩
  · rename_i lp hlp
    split at h
    · split at h
      · exact absurd h (by simp)
      · rename_i wu wp ex2 heq
        exact wslDirFinish_invariants lp wu wp _ _ ex2 r
          (wslWinGen_pair o gen t.1 t.2.1 lp _ wu wp ex2 hwin heq) h
    · injection h with h
      subst h
      exact ⟨by simp, hwin, by simp⟩

/-- C10: every result actually returned by `wsl_transform_path_uri` (for any
input string, flag, and behavior of the filesystem and `wslpath` oracles)
satisfies the three closing assertions of the Python function: a known Linux
path forces a known `is_win_location`, a known Windows URI forces a known
Windows path, and existence forces a known directory status. -/
theorem wsl_transform_result_assertions :
    ∀ (o : FsOracles) (pu : Str) (gen : Bool) (r : WSLTransformPathURI),
    wsl_transform_path_uri o pu gen = some r →
    (r.linux_path ≠ none → r.is_win_location ≠ none) ∧
    (r.win_uri ≠ none → r.win_path ≠ none) ∧
    (r.file_exists = true → r.is_dir ≠ none) := by
  intro o pu gen r h
  unfold wsl_transform_path_uri at h
  cases hc : wslClassify o pu with
  | none =>
    rw [hc] at h
    exact absurd h (by simp)
  | some t =>
    rw [hc] at h
    exact wslEvaluate_invariants o gen t r (wslClassify_win_pair o pu t hc) h

/-- C10: every result actually returned by `wsl_transform_path_uri` (for any
input string, flag, and behavior of the filesystem and `wslpath` oracles)
satisfies the three closing assertions of the Python function: a known Linux
path forces a known `is_win_location`, a known Windows URI forces a known
Windows path, and existence forces a known directory status. -/
theorem wsl_transform_result_assertions_witness :
    (some "/x".toList ≠ (none : Option Str) →
      some false ≠ (none : Option Bool)) ∧
    ((none : Option Str) ≠ none → (none : Option Str) ≠ none) ∧
    (false = true → (none : Option Bool) ≠ none) :=
  wsl_transform_result_assertions noFileOracles "/x".toList false
    ⟨some false, none, none, some "/x".toList, none, false⟩ (by decide)


/-- Witness for C3's amended characterization at a genuine WSL1 kernel
string, via the third component of the characterization. -/
theorem wsl_detection_characterization_witness :
    is_wsl1 "Linux version 4.4.0-19041-Microsoft".toList = true :=
  ((wsl_detection_characterization "Linux version 4.4.0-19041-Microsoft".toList).2.2).mpr
    (by decide)

/-- Witness for C6 with a concrete oracle. -/
theorem wsl_transform_windows_program_files_witness :
    wsl_transform_path_uri programFilesOracles "C:\\Program Files".toList true =
      some ⟨some true, some "file:///c:/Program%20Files/".toList,
        some "C:\\Program Files".toList, some "/mnt/c/Program Files".toList,
        some true, true⟩ :=
  wsl_transform_windows_program_files programFilesOracles (by decide) (by decide)
    (by decide) (by decide)
